import Mathlib

/-!
Shallow embedding of `src/generate.ts` (and its invocation in `src/index.ts`)
from the generate-schema repository.

The program consumes a database of services, resources and type definitions
and produces a `Specification` with two documents (`cdkResources`,
`cdkTypes`).  JavaScript objects are modelled as insertion-ordered
association lists (`List (String × _)`); JavaScript `undefined` flowing
through the value-type computations is modelled by the `ValueType.undef`
constructor; thrown exceptions (`.only()`, `db.get`, `TypeError`) are
modelled with `Except String`.
-/

namespace GenSchema

/-- A property-type descriptor from the specification database
(`PropertyType` of `@aws-cdk/service-spec-types`).  The `unknown`
constructor stands for any tag outside the ones the `switch` in
`doGetType` recognizes (the switch has no `default` case). -/
inductive PropertyType where
  | string
  | boolean
  | number
  | integer
  | dateTime
  | ref (r : String)
  | array (element : PropertyType)
  | json
  | map (element : PropertyType)
  | tag
  | union (types : List PropertyType)
  | null
  | unknown (tagName : String)


/-- The canonical value-type descriptors produced by `doGetType`.
`undef` is JavaScript's `undefined` result for an unrecognized tag. -/
inductive ValueType where
  | undef
  | primitive (kind : String)
  | named (name : String)
  | listOf (t : ValueType)
  | mapOf (t : ValueType)
  | unionOf (ts : List ValueType)


/-- A JavaScript value appearing in an emitted field entry. -/
inductive JVal where
  | vStr (s : String)
  | vBool (b : Bool)
  | vType (v : ValueType)


/-- A JavaScript object: insertion-ordered association list. -/
abbrev JsObj := List (String × JVal)

/-- `propertyRefList` / `refIds`: string-valued JavaScript objects. -/
abbrev RefTable := List (String × String)

/-- A property record (`resource.properties[id]` / `type.properties[id]`):
current type, optional list of superseded previous types, required flag. -/
structure PropertyRec where
  type : PropertyType
  previousTypes : Option (List PropertyType)
  required : Bool


/-- An attribute record (`resource.attributes[id]`). -/
structure AttributeRec where
  type : PropertyType
  previousTypes : Option (List PropertyType)


/-- A type definition record (`db.all('typeDefinition')` element):
`$id`, short `name`, and ordered properties. -/
structure TypeDef where
  id : String
  name : String
  properties : List (String × PropertyRec)


/-- A resource record. -/
structure Resource where
  cloudFormationType : String
  name : String
  attributes : List (String × AttributeRec)
  properties : List (String × PropertyRec)


/-- A service record. -/
structure Service where
  name : String
  cloudFormationNamespace : String


/-- The loaded specification database (an immutable snapshot). -/
structure Database where
  services : List Service
  resources : List Resource
  typeDefs : List TypeDef


/-- Assignment `o[k] = v` on a JavaScript object: updates the existing key
in place (keeping its position) or appends a fresh key at the end. -/
def objSet {α : Type} : List (String × α) → String → α → List (String × α)
  | [], k, v => [(k, v)]
  | (k', v') :: rest, k, v =>
    if k' = k then (k, v) :: rest else (k', v') :: objSet rest k v

/-- Property access `o[k]` on a JavaScript object. -/
def objLookup {α : Type} : List (String × α) → String → Option α
  | [], _ => none
  | (k', v') :: rest, k => if k' = k then some v' else objLookup rest k

/-- `Except` success test. -/
def okB {ε α : Type} : Except ε α → Bool
  | .ok _ => true
  | .error _ => false

/-- `.only()` on a query result: exactly one element or a thrown error. -/
def only {α : Type} (l : List α) : Except String α :=
  match l with
  | [x] => .ok x
  | _ => .error ("expected exactly one result, got " ++ toString l.length)

/-- `db.lookup('service', 'cloudFormationNamespace', 'equals', ns)`. -/
def lookupService (db : Database) (ns : String) : List Service :=
  db.services.filter (fun s => s.cloudFormationNamespace = ns)

/-- `db.get('typeDefinition', id)` without the throw: find by `$id`. -/
def findTypeDef (db : Database) (r : String) : Option TypeDef :=
  db.typeDefs.find? (fun d => d.id = r)

/-! String utilities mirroring the JavaScript string methods used:
`split` with a one-character or `"::"` separator, first-occurrence
`replace`, and `join`/template-literal concatenation. -/

/-- JavaScript `s.split(c)` for a single-character separator. -/
def splitChar (c : Char) : List Char → List (List Char)
  | [] => [[]]
  | x :: xs =>
    if x = c then [] :: splitChar c xs
    else
      match splitChar c xs with
      | [] => [[x]]
      | g :: gs => (x :: g) :: gs

/-- JavaScript `s.split('::')`. -/
def splitCC : List Char → List (List Char)
  | [] => [[]]
  | [c] => [[c]]
  | c1 :: c2 :: cs =>
    if c1 = ':' ∧ c2 = ':' then [] :: splitCC cs
    else
      match splitCC (c2 :: cs) with
      | [] => [[c1]]
      | g :: gs => (c1 :: g) :: gs

/-- `s.split('::')` at the `String` level. -/
def ccSplit (s : String) : List String :=
  (splitCC s.data).map (fun l => String.mk l)

/-- `s.split('.')[0]`: everything before the first `'.'`. -/
def firstDotSeg (s : String) : String :=
  String.mk ((splitChar '.' s.data).headD [])

/-- JavaScript `s.replace(pat, rep)` with a string pattern: replaces only
the FIRST occurrence of `pat` (chars-level worker). -/
def listReplaceFirst (pat rep : List Char) : List Char → List Char
  | [] => if pat.isEmpty then rep else []
  | c :: cs =>
    if pat.isPrefixOf (c :: cs) then rep ++ (c :: cs).drop pat.length
    else c :: listReplaceFirst pat rep cs

/-- JavaScript `s.replace(pat, rep)` at the `String` level. -/
def replaceFirst (s pat rep : String) : String :=
  String.mk (listReplaceFirst pat.data rep.data s.data)

/-! The type resolver `getType` (generate.ts lines 64-103).  `refIds` is
the mutable object captured by `doGetType`; it is threaded explicitly.
The recognized-tag cases mirror the `switch`; `Type.STRING.spec` etc. are
the typewriter primitive specs; `db.get` on a missing `$ref` throws. -/

mutual

/-- `doGetType` (generate.ts lines 66-101). -/
def doGetType (db : Database) (cfnType : String) :
    PropertyType → RefTable → Except String (ValueType × RefTable)
  | .string, ids => .ok (.primitive "string", ids)
  | .boolean, ids => .ok (.primitive "boolean", ids)
  | .number, ids => .ok (.primitive "number", ids)
  | .integer, ids => .ok (.primitive "number", ids)
  | .dateTime, ids => .ok (.primitive "date-time", ids)
  | .ref r, ids =>
    match findTypeDef db r with
    | some d => .ok (.named (cfnType ++ "." ++ d.name), objSet ids d.id d.name)
    | none => .error ("no typeDefinition with id " ++ r)
  | .array e, ids =>
    match doGetType db cfnType e ids with
    | .error err => .error err
    | .ok (t, ids') => .ok (.listOf t, ids')
  | .json, ids => .ok (.primitive "json", ids)
  | .map e, ids =>
    match doGetType db cfnType e ids with
    | .error err => .error err
    | .ok (t, ids') => .ok (.mapOf t, ids')
  | .tag, ids => .ok (.named "CfnTag", ids)
  | .union ts, ids =>
    match doGetTypeList db cfnType ts ids with
    | .error err => .error err
    | .ok (vs, ids') => .ok (.unionOf vs, ids')
  | .null, ids => .ok (.primitive "undefined", ids)
  | .unknown _, ids => .ok (.undef, ids)

/-- `_propType.types.map((t) => doGetType(t, _cfnType))` in the union case. -/
def doGetTypeList (db : Database) (cfnType : String) :
    List PropertyType → RefTable → Except String (List ValueType × RefTable)
  | [], ids => .ok ([], ids)
  | t :: ts, ids =>
    match doGetType db cfnType t ids with
    | .error err => .error err
    | .ok (v, ids') =>
      match doGetTypeList db cfnType ts ids' with
      | .error err => .error err
      | .ok (vs, ids'') => .ok (v :: vs, ids'')

end

/-- `getType` (generate.ts line 64): fresh `refIds` per call. -/
def getType (db : Database) (pt : PropertyType) (cfnType : String) :
    Except String (ValueType × RefTable) :=
  doGetType db cfnType pt []

/-- `previousTypes.map((t) => getType(t, cfn).type)`: resolves every
previous descriptor, discarding their reference ids. -/
def mapGetTypes (db : Database) (cfn : String) :
    List PropertyType → Except String (List ValueType)
  | [] => .ok []
  | t :: ts =>
    match getType db t cfn with
    | .error e => .error e
    | .ok v =>
      match mapGetTypes db cfn ts with
      | .error e => .error e
      | .ok vs => .ok (v.1 :: vs)

/-- `previousTypes?.map((t) => getType(t, cfn).type).pop()`: the optional
chain yields `undefined` when `previousTypes` is absent, and `.pop()` of an
empty array is also `undefined` (both are `ValueType.undef`). -/
def resolvePrev (db : Database) (pts : Option (List PropertyType)) (cfn : String) :
    Except String ValueType :=
  match pts with
  | none => .ok .undef
  | some l =>
    match mapGetTypes db cfn l with
    | .error e => .error e
    | .ok vs => .ok (vs.getLast?.getD .undef)

/-- JavaScript `a ?? b` on the values at hand (`undefined` falls through). -/
def jsCoalesce (a b : ValueType) : ValueType :=
  match a with
  | .undef => b
  | v => v

/-! Pass 1: the resource loop (generate.ts lines 105-180). -/

/-- One emitted resource: `{construct, attributes, properties}`.  The
per-language naming records are string-valued objects. -/
structure ResourceEntry where
  construct : List (String × List (String × String))
  attributes : List (String × JsObj)
  properties : List (String × JsObj)

/-- One emitted nested type: `{name, properties}`. -/
structure TypeEntry where
  name : List (String × List (String × String))
  properties : List (String × JsObj)

/-- The returned `Specification` (`{cdkResources, cdkTypes}`). -/
structure Specification where
  cdkResources : List (String × ResourceEntry)
  cdkTypes : List (String × TypeEntry)

/-- `cloudFormationType.split('::').slice(0, 2).join('::')`
(generate.ts line 113). -/
def resServiceType (r : Resource) : String :=
  String.intercalate "::" ((ccSplit r.cloudFormationType).take 2)

/-- `Object.entries(type.ids).map(([_id, _type]) => { propertyRefList[_id] =
cfnType + '.' + _type })` (generate.ts lines 144-146 and 164-166). -/
def writeRefs (cfnType : String) (ids : RefTable) (refs : RefTable) : RefTable :=
  ids.foldl (fun acc p => objSet acc p.1 (cfnType ++ "." ++ p.2)) refs

/-- The construct naming record (generate.ts lines 115-139).  All string
substitutions are JavaScript first-occurrence `replace`. -/
def constructNaming (service : Service) (resourceName : String) :
    List (String × List (String × String)) :=
  let name := "Cfn" ++ resourceName
  let goPackage := replaceFirst service.name "-" ""
  [("typescript",
    [("module", "aws-cdk-lib/" ++ service.name), ("name", name)]),
   ("csharp",
    [("namespace", "Amazon.CDK." ++ replaceFirst service.cloudFormationNamespace "::" "."),
     ("name", name)]),
   ("golang",
    [("module", "github.com/aws/aws-cdk-go/awscdk/v2/" ++ goPackage),
     ("package", goPackage), ("name", name)]),
   ("java",
    [("package", "software.amazon.awscdk." ++
        replaceFirst (replaceFirst service.name "-" ".") "aws" "services"),
     ("name", name)]),
   ("python",
    [("module", "aws_cdk." ++ replaceFirst service.name "-" "_"), ("name", name)])]

/-- One attribute (generate.ts lines 142-159): resolve the current type,
record its referenced ids, resolve the previous types, and emit
`{name, valueType: type.type, previousType}` — note the attribute's
`valueType` is always the current type's resolution. -/
def processAttribute (db : Database) (cfnType : String) (refs : RefTable)
    (id : String) (a : AttributeRec) : Except String (JsObj × RefTable) :=
  match getType db a.type cfnType with
  | .error e => .error e
  | .ok tp =>
    let refs' := writeRefs cfnType tp.2 refs
    match resolvePrev db a.previousTypes cfnType with
    | .error e => .error e
    | .ok prev =>
      .ok ([("name", JVal.vStr id), ("valueType", JVal.vType tp.1),
            ("previousType", JVal.vType prev)], refs')

/-- One resource property (generate.ts lines 162-179): emit
`{name, valueType: previousType ?? type.type, required}`. -/
def processResourceProperty (db : Database) (cfnType : String) (refs : RefTable)
    (id : String) (p : PropertyRec) : Except String (JsObj × RefTable) :=
  match getType db p.type cfnType with
  | .error e => .error e
  | .ok tp =>
    let refs' := writeRefs cfnType tp.2 refs
    match resolvePrev db p.previousTypes cfnType with
    | .error e => .error e
    | .ok prev =>
      .ok ([("name", JVal.vStr id), ("valueType", JVal.vType (jsCoalesce prev tp.1)),
            ("required", JVal.vBool p.required)], refs')

/-- `Object.entries(resource.attributes).map(...)` building `attributeList`
(keys coming from `Object.entries` are unique, so appending in order is the
object the loop builds). -/
def processAttrs (db : Database) (cfnType : String) :
    RefTable → List (String × AttributeRec) →
    Except String (List (String × JsObj) × RefTable)
  | refs, [] => .ok ([], refs)
  | refs, (id, a) :: rest =>
    match processAttribute db cfnType refs id a with
    | .error e => .error e
    | .ok (entry, refs') =>
      match processAttrs db cfnType refs' rest with
      | .error e => .error e
      | .ok (others, refsF) => .ok ((id, entry) :: others, refsF)

/-- `Object.entries(resource.properties).map(...)` building
`resourceProperties`. -/
def processProps (db : Database) (cfnType : String) :
    RefTable → List (String × PropertyRec) →
    Except String (List (String × JsObj) × RefTable)
  | refs, [] => .ok ([], refs)
  | refs, (id, p) :: rest =>
    match processResourceProperty db cfnType refs id p with
    | .error e => .error e
    | .ok (entry, refs') =>
      match processProps db cfnType refs' rest with
      | .error e => .error e
      | .ok (others, refsF) => .ok ((id, entry) :: others, refsF)

/-- One iteration of the resource loop (generate.ts lines 105-180).  The
skeleton assignment at line 107 is fully overwritten on success and
unobservable on a thrown error (the run returns nothing), so the entry is
built in one step here. -/
def processResource (db : Database) (refs : RefTable) (r : Resource) :
    Except String (RefTable × ResourceEntry) :=
  match only (lookupService db (resServiceType r)) with
  | .error e => .error e
  | .ok service =>
    match processAttrs db r.cloudFormationType refs r.attributes with
    | .error e => .error e
    | .ok (attrs, refs1) =>
      match processProps db r.cloudFormationType refs1 r.properties with
      | .error e => .error e
      | .ok (props, refs2) =>
        .ok (refs2,
             { construct := constructNaming service r.name,
               attributes := attrs, properties := props })

/-- The whole of pass 1: fold over `db.all('resource')`, threading
`propertyRefList` and accumulating `resourceTypes`. -/
def pass1 (db : Database) :
    RefTable → List (String × ResourceEntry) → List Resource →
    Except String (RefTable × List (String × ResourceEntry))
  | refs, acc, [] => .ok (refs, acc)
  | refs, acc, r :: rs =>
    match processResource db refs r with
    | .error e => .error e
    | .ok (refs', entry) =>
      pass1 db refs' (objSet acc r.cloudFormationType entry) rs

/-! Pass 2: the type-definition loop (generate.ts lines 182-239). -/

/-- The nested-type naming record (generate.ts lines 201-225). -/
def typeNaming (service : Service) (initParts : List String)
    (propertyName : String) : List (String × List (String × String)) :=
  let goPackage := replaceFirst service.name "-" ""
  [("typescript",
    [("module", "aws-cdk-lib/" ++ service.name), ("name", propertyName)]),
   ("csharp",
    [("namespace", "Amazon.CDK." ++ String.intercalate "." initParts),
     ("name", propertyName)]),
   ("golang",
    [("module", "github.com/aws/aws-cdk-go/awscdk/v2/" ++ goPackage),
     ("package", goPackage), ("name", replaceFirst propertyName "." "_")]),
   ("java",
    [("package", "software.amazon.awscdk." ++
        replaceFirst (replaceFirst service.name "-" ".") "aws" "services"),
     ("name", propertyName)]),
   ("python",
    [("module", "aws_cdk." ++ replaceFirst service.name "-" "_"),
     ("name", propertyName)])]

/-- One nested-type property (generate.ts lines 227-235): the previous
types are resolved before the current type, then
`{name, valueType: previousType ?? propType.type, required}` is emitted
(the current type's referenced ids are discarded in this pass). -/
def processTypeProperty (db : Database) (own : String) (id : String)
    (p : PropertyRec) : Except String JsObj :=
  match resolvePrev db p.previousTypes own with
  | .error e => .error e
  | .ok prev =>
    match getType db p.type own with
    | .error e => .error e
    | .ok tp =>
      .ok [("name", JVal.vStr id), ("valueType", JVal.vType (jsCoalesce prev tp.1)),
           ("required", JVal.vBool p.required)]

/-- `Object.entries(type.properties).map(...)` building
`propertyTypeDetails`. -/
def processTypeProps (db : Database) (own : String) :
    List (String × PropertyRec) → Except String (List (String × JsObj))
  | [] => .ok []
  | (id, p) :: rest =>
    match processTypeProperty db own id p with
    | .error e => .error e
    | .ok entry =>
      match processTypeProps db own rest with
      | .error e => .error e
      | .ok others => .ok ((id, entry) :: others)

/-- One iteration of the type-definition loop (generate.ts lines 183-238).
`rn` is the `resourceName` variable carried between iterations.  When the
type's `$id` is not in `propertyRefList` and `resourceName` is still
`undefined`, the loop body throws a `TypeError` (`.split` of `undefined`).
Returns the updated `resourceName`, the key `fullPropertyName`, and the
emitted entry. -/
def processTypeDef (db : Database) (refs : RefTable) (rn : Option String)
    (t : TypeDef) : Except String (String × String × TypeEntry) :=
  match (match objLookup refs t.id with
         | some s => Except.ok s
         | none =>
           match rn with
           | some r => Except.ok r
           | none => Except.error
               "TypeError: cannot read properties of undefined (reading split)") with
  | .error e => .error e
  | .ok base =>
    let resourceName := firstDotSeg base
    let shortPropertyName := t.name ++ "Property"
    let fullPropertyName := resourceName ++ "." ++ shortPropertyName
    let parts := ccSplit resourceName
    let propertyName := "Cfn" ++ (parts.getLast?.getD "") ++ "." ++ shortPropertyName
    let initParts := parts.dropLast
    match only (lookupService db (String.intercalate "::" initParts)) with
    | .error e => .error e
    | .ok service =>
      match processTypeProps db resourceName t.properties with
      | .error e => .error e
      | .ok props =>
        .ok (resourceName, fullPropertyName,
             { name := typeNaming service initParts propertyName,
               properties := props })

/-- The whole of pass 2: fold over `db.all('typeDefinition')`, threading
`resourceName` and accumulating `propertyTypes` and
`propertyTypeKeyList`. -/
def pass2 (db : Database) (refs : RefTable) :
    Option String → List (String × TypeEntry) → RefTable → List TypeDef →
    Except String (List (String × TypeEntry) × RefTable)
  | _, acc, keys, [] => .ok (acc, keys)
  | rn, acc, keys, t :: ts =>
    match processTypeDef db refs rn t with
    | .error e => .error e
    | .ok (rn', fullName, entry) =>
      pass2 db refs (some rn') (objSet acc fullName entry)
        (objSet keys t.id fullName) ts

/-- `generate` (generate.ts lines 35-245).  The `modules`/`moduleMap`
objects built at lines 41-62 are never read afterwards and do not affect
the returned `Specification`, so they are not reproduced here.
`propertyTypeKeyList` is computed by pass 2 but not part of the result. -/
def generate (db : Database) : Except String Specification :=
  match pass1 db [] [] db.resources with
  | .error e => .error e
  | .ok (refs, resourceTypes) =>
    match pass2 db refs none [] [] db.typeDefs with
    | .error e => .error e
    | .ok (propertyTypes, _keyList) =>
      .ok { cdkResources := resourceTypes, cdkTypes := propertyTypes }

/-! Concrete databases used to evaluate the theorems below on explicit
inputs. -/

/-- A service `aws-a` with namespace `AWS::A`. -/
def svcA : Service := ⟨"aws-a", "AWS::A"⟩

/-- A type definition with id `td1` and short name `Conf`. -/
def tdConf : TypeDef := ⟨"td1", "Conf", []⟩

/-- A second type definition, with id `td2`, that no resource references. -/
def tdExtra : TypeDef := ⟨"td2", "Extra", []⟩

/-- A resource whose attribute `Conf` references `td1`. -/
def resOne : Resource :=
  ⟨"AWS::A::One", "One", [("Conf", ⟨.ref "td1", none⟩)], []⟩

/-- A second resource whose property `Conf` also references `td1`. -/
def resTwo : Resource :=
  ⟨"AWS::A::Two", "Two", [], [("Conf", ⟨.ref "td1", none, true⟩)]⟩

/-- Two resources referencing the same type definition. -/
def db3 : Database := ⟨[svcA], [resOne, resTwo], [tdConf]⟩

/-- One referencing resource and one unreferenced type definition after a
referenced one. -/
def db4 : Database := ⟨[svcA], [resOne], [tdConf, tdExtra]⟩

/-- The reference table pass 1 produces for `db4`. -/
def refs4 : RefTable := [("td1", "AWS::A::One.Conf")]

/-- No resources at all, and a type definition nothing references. -/
def db9 : Database := ⟨[svcA], [], [tdExtra]⟩

/-- A database whose one resource has a namespace matching no service. -/
def dbNoSvc : Database := ⟨[], [resOne], []⟩

/-- An attribute declaring a previous type: current `string`, previous
`[boolean]`. -/
def attrA : AttributeRec := ⟨.string, some [.boolean]⟩

/-- A property declaring two previous types `[number, boolean]`. -/
def propPrev : PropertyRec := ⟨.string, some [.number, .boolean], true⟩

/-- A property declaring an empty previous-type list. -/
def propEmptyPrev : PropertyRec := ⟨.string, some [], true⟩

/-! Helper lemmas. -/

theorem splitChar_ne_nil (c : Char) (l : List Char) : splitChar c l ≠ [] := by
  induction l with
  | nil => simp [splitChar]
  | cons x xs ih =>
    rw [splitChar]
    by_cases hx : x = c
    · simp [hx]
    · simp only [if_neg hx]
      cases h : splitChar c xs with
      | nil => simp
      | cons g gs => simp

theorem splitChar_headD (c : Char) (l : List Char) :
    (splitChar c l).headD [] = l.takeWhile (fun x => x != c) := by
  induction l with
  | nil => rfl
  | cons x xs ih =>
    rw [splitChar, List.takeWhile]
    by_cases hx : x = c
    · simp [hx]
    · simp only [if_neg hx]
      have hb : (x != c) = true := by simp [hx]
      rw [hb]
      cases h : splitChar c xs with
      | nil => exact absurd h (splitChar_ne_nil c xs)
      | cons g gs =>
        simp only [List.headD_cons]
        rw [h] at ih
        simp only [List.headD_cons] at ih
        rw [ih]

theorem firstDotSeg_idem (s : String) : firstDotSeg (firstDotSeg s) = firstDotSeg s := by
  unfold firstDotSeg
  rw [splitChar_headD, splitChar_headD, List.takeWhile_idem]

theorem isPrefixOf_append_self (p b : List Char) : p.isPrefixOf (p ++ b) = true := by
  induction p with
  | nil => simp [List.isPrefixOf]
  | cons c cs ih => simp [List.isPrefixOf, ih]

theorem only_len_ne_one {α : Type} (l : List α) (h : l.length ≠ 1) :
    ∃ e, only l = .error e := by
  cases l with
  | nil => exact ⟨_, rfl⟩
  | cons a t =>
    cases t with
    | nil => exact absurd rfl h
    | cons b t2 => exact ⟨_, rfl⟩

theorem pass1_mem_err (db : Database) (r : Resource) :
    ∀ (rs : List Resource) (refs : RefTable) (acc : List (String × ResourceEntry)),
    r ∈ rs → (lookupService db (resServiceType r)).length ≠ 1 →
    okB (pass1 db refs acc rs) = false := by
  intro rs
  induction rs with
  | nil => intro refs acc hmem _; cases hmem
  | cons r0 rest ih =>
    intro refs acc hmem hlen
    rcases List.mem_cons.mp hmem with heq | hmem'
    · subst heq
      obtain ⟨e, he⟩ := only_len_ne_one _ hlen
      rw [pass1, processResource, he]
      rfl
    · rw [pass1]
      cases hpr : processResource db refs r0 with
      | error e => rfl
      | ok pr => exact ih pr.1 (objSet acc r0.cloudFormationType pr.2) hmem' hlen

/-! The claims. -/

/-- Claim C6 (confirmed): for every property-type descriptor whose tag is
not one of the recognized tags, the type resolver returns an undefined
value type (and the unchanged reference ids) rather than raising an
error — resolution of such a descriptor never fails. -/
theorem unrecognized_tag_resolves_undefined (db : Database)
    (cfn tagName : String) (ids : RefTable) :
    doGetType db cfn (.unknown tagName) ids = .ok (.undef, ids) := rfl

/-- Claim C7 (confirmed): resolving a reference descriptor whose target
type definition `d` exists, scoped to owning qualified name `own`, returns
the value type `named "<own>.<d.name>"` and a referenced-ids map holding
exactly the one entry `d.id ↦ d.name`. -/
theorem ref_resolution (db : Database) (r own : String) (d : TypeDef)
    (h : findTypeDef db r = some d) :
    getType db (.ref r) own
      = .ok (.named (own ++ "." ++ d.name), [(d.id, d.name)]) := by
  unfold getType
  rw [doGetType, h]
  rfl

theorem ref_resolution_witness :
    getType db3 (.ref "td1") "AWS::A::One"
      = .ok (.named ("AWS::A::One" ++ "." ++ "Conf"), [("td1", "Conf")]) :=
  ref_resolution db3 "td1" "AWS::A::One" tdConf rfl

/-- Claim C10 (confirmed): a property whose previous-type sequence is
declared but empty is treated identically to one declaring no previous
types, in the resource-property loop of pass 1 and in the nested-type
property loop of pass 2 alike; in particular its emitted `valueType` is
the resolved current type descriptor. -/
theorem empty_previous_types (db : Database) (cfn own : String)
    (refs : RefTable) (id : String) (p : PropertyRec)
    (hp : p.previousTypes = some []) :
    processResourceProperty db cfn refs id p
      = processResourceProperty db cfn refs id { p with previousTypes := none }
    ∧ processTypeProperty db own id p
      = processTypeProperty db own id { p with previousTypes := none }
    ∧ ∀ t ids, getType db p.type cfn = .ok (t, ids) →
        (processResourceProperty db cfn refs id p).map
            (fun pr => objLookup pr.1 "valueType")
          = .ok (some (.vType t)) := by
  have hprev : resolvePrev db p.previousTypes cfn = .ok .undef := by
    rw [hp]; rfl
  have hprev2 : resolvePrev db p.previousTypes own = .ok .undef := by
    rw [hp]; rfl
  refine ⟨?_, ?_, ?_⟩
  · cases hg : getType db p.type cfn with
    | error e => simp [processResourceProperty, hg]
    | ok tp => simp [processResourceProperty, hg, hp, resolvePrev, mapGetTypes]
  · cases hg : getType db p.type own with
    | error e => simp [processTypeProperty, hg, hp, resolvePrev, mapGetTypes]
    | ok tp => simp [processTypeProperty, hg, hp, resolvePrev, mapGetTypes]
  · intro t ids hg
    rw [processResourceProperty, hg, hprev]
    rfl

theorem empty_previous_types_witness :
    processResourceProperty db3 "X" [] "P" propEmptyPrev
      = processResourceProperty db3 "X" [] "P"
          { propEmptyPrev with previousTypes := none }
    ∧ processTypeProperty db3 "X" "P" propEmptyPrev
      = processTypeProperty db3 "X" "P"
          { propEmptyPrev with previousTypes := none }
    ∧ ∀ t ids, getType db3 propEmptyPrev.type "X" = .ok (t, ids) →
        (processResourceProperty db3 "X" [] "P" propEmptyPrev).map
            (fun pr => objLookup pr.1 "valueType")
          = .ok (some (.vType t)) :=
  empty_previous_types db3 "X" "X" [] "P" propEmptyPrev rfl

/-- Claim C1 counterexample: the attribute `attrA` declares the non-empty
previous-type sequence `[boolean]`, whose last descriptor resolves to
`primitive "boolean"`, yet the emitted attribute's `valueType` is
`primitive "string"` — the resolution of the CURRENT type descriptor, not
of the last previous one. -/
theorem attribute_previous_type_cex :
    attrA.previousTypes = some [.boolean]
    ∧ getType db3 .boolean "AWS::A::One" = .ok (.primitive "boolean", [])
    ∧ (processAttribute db3 "AWS::A::One" [] "Arn" attrA).map
        (fun pr => objLookup pr.1 "valueType")
      = .ok (some (.vType (.primitive "string")))
    ∧ getType db3 attrA.type "AWS::A::One" = .ok (.primitive "string", [])
    ∧ ValueType.primitive "string" ≠ ValueType.primitive "boolean" :=
  ⟨rfl, rfl, rfl, rfl, by intro h; injection h with h2; exact absurd h2 (by decide)⟩

/-- Claim C1 (corrected), amended: for every PROPERTY — of a resource in
pass 1 or of a nested type definition in pass 2 — whose declared previous
types resolve to a defined (non-undefined) last value `v`, the emitted
`valueType` equals `v` and not the current type's resolution; for every
ATTRIBUTE, the emitted `valueType` always equals the resolved current
type descriptor, the resolved last previous descriptor being emitted
under the separate `previousType` key instead. -/
theorem previous_type_precedence (db : Database) (cfn own : String)
    (refs : RefTable) (id : String) :
    (∀ (p : PropertyRec) (v : ValueType) (e : JsObj) (rs : RefTable),
        resolvePrev db p.previousTypes cfn = .ok v → v ≠ .undef →
        processResourceProperty db cfn refs id p = .ok (e, rs) →
        objLookup e "valueType" = some (.vType v))
    ∧ (∀ (p : PropertyRec) (v : ValueType) (e : JsObj),
        resolvePrev db p.previousTypes own = .ok v → v ≠ .undef →
        processTypeProperty db own id p = .ok e →
        objLookup e "valueType" = some (.vType v))
    ∧ (∀ (a : AttributeRec) (t : ValueType) (ids : RefTable) (e : JsObj)
        (rs : RefTable),
        getType db a.type cfn = .ok (t, ids) →
        processAttribute db cfn refs id a = .ok (e, rs) →
        objLookup e "valueType" = some (.vType t)
          ∧ ∃ pv, resolvePrev db a.previousTypes cfn = .ok pv
              ∧ objLookup e "previousType" = some (.vType pv)) := by
  have hco : ∀ (v b : ValueType), v ≠ .undef → jsCoalesce v b = v := by
    intro v b hv
    cases v with
    | undef => exact absurd rfl hv
    | primitive k => rfl
    | named n => rfl
    | listOf t => rfl
    | mapOf t => rfl
    | unionOf ts => rfl
  refine ⟨?_, ?_, ?_⟩
  · intro p v e rs hprev hv hrun
    cases hg : getType db p.type cfn with
    | error e0 => rw [processResourceProperty, hg] at hrun; exact absurd hrun (by simp)
    | ok tp =>
      rw [processResourceProperty, hg, hprev] at hrun
      simp only [Except.ok.injEq, Prod.mk.injEq] at hrun
      rw [← hrun.1, hco v tp.1 hv]
      rfl
  · intro p v e hprev hv hrun
    cases hg : getType db p.type own with
    | error e0 =>
      rw [processTypeProperty, hprev, hg] at hrun; exact absurd hrun (by simp)
    | ok tp =>
      rw [processTypeProperty, hprev, hg] at hrun
      simp only [Except.ok.injEq] at hrun
      rw [← hrun, hco v tp.1 hv]
      rfl
  · intro a t ids e rs hg hrun
    cases hprev : resolvePrev db a.previousTypes cfn with
    | error e0 => rw [processAttribute, hg, hprev] at hrun; exact absurd hrun (by simp)
    | ok pv =>
      rw [processAttribute, hg, hprev] at hrun
      simp only [Except.ok.injEq, Prod.mk.injEq] at hrun
      rw [← hrun.1]
      exact ⟨rfl, pv, rfl, rfl⟩

theorem previous_type_precedence_witness :
    objLookup [("name", JVal.vStr "P"),
               ("valueType", JVal.vType (.primitive "boolean")),
               ("required", JVal.vBool true)] "valueType"
      = some (.vType (.primitive "boolean")) :=
  (previous_type_precedence db3 "X" "X" [] "P").1 propPrev (.primitive "boolean")
    [("name", JVal.vStr "P"), ("valueType", JVal.vType (.primitive "boolean")),
     ("required", JVal.vBool true)] [] rfl
    (by intro h; exact ValueType.noConfusion h) rfl

/-- Claim C2 counterexample: the attribute entry emitted for `attrA` has
the keys `name`, `valueType` AND `previousType` — not exactly
`{name, valueType}` as claimed (and `previousType` here holds a defined
value, so it also survives JSON serialization). -/
theorem attribute_entry_shape_cex :
    (processAttribute db3 "AWS::A::One" [] "Arn" attrA).map
        (fun pr => pr.1.map Prod.fst)
      = .ok ["name", "valueType", "previousType"]
    ∧ (processAttribute db3 "AWS::A::One" [] "Arn" attrA).map
        (fun pr => objLookup pr.1 "previousType")
      = .ok (some (.vType (.primitive "boolean")))
    ∧ (["name", "valueType", "previousType"] : List String)
        ≠ ["name", "valueType"] :=
  ⟨rfl, rfl, by decide⟩

/-- Claim C2 (corrected), amended: each emitted attribute entry is a
record of exactly the shape `{name, valueType, previousType}` (the extra
`previousType` key holding the resolved last previous descriptor,
undefined when none is declared), while each emitted property entry — in
pass 1 and pass 2 alike — has exactly the shape
`{name, valueType, required}`. -/
theorem entry_shapes (db : Database) (cfn own : String) (refs : RefTable)
    (id : String) :
    (∀ (a : AttributeRec) (e : JsObj) (rs : RefTable),
        processAttribute db cfn refs id a = .ok (e, rs) →
        e.map Prod.fst = ["name", "valueType", "previousType"])
    ∧ (∀ (p : PropertyRec) (e : JsObj) (rs : RefTable),
        processResourceProperty db cfn refs id p = .ok (e, rs) →
        e.map Prod.fst = ["name", "valueType", "required"])
    ∧ (∀ (p : PropertyRec) (e : JsObj),
        processTypeProperty db own id p = .ok e →
        e.map Prod.fst = ["name", "valueType", "required"]) := by
  refine ⟨?_, ?_, ?_⟩
  · intro a e rs hrun
    cases hg : getType db a.type cfn with
    | error e0 => rw [processAttribute, hg] at hrun; exact absurd hrun (by simp)
    | ok tp =>
      cases hprev : resolvePrev db a.previousTypes cfn with
      | error e0 =>
        rw [processAttribute, hg, hprev] at hrun; exact absurd hrun (by simp)
      | ok pv =>
        rw [processAttribute, hg, hprev] at hrun
        simp only [Except.ok.injEq, Prod.mk.injEq] at hrun
        rw [← hrun.1]
        rfl
  · intro p e rs hrun
    cases hg : getType db p.type cfn with
    | error e0 =>
      rw [processResourceProperty, hg] at hrun; exact absurd hrun (by simp)
    | ok tp =>
      cases hprev : resolvePrev db p.previousTypes cfn with
      | error e0 =>
        rw [processResourceProperty, hg, hprev] at hrun
        exact absurd hrun (by simp)
      | ok pv =>
        rw [processResourceProperty, hg, hprev] at hrun
        simp only [Except.ok.injEq, Prod.mk.injEq] at hrun
        rw [← hrun.1]
        rfl
  · intro p e hrun
    cases hprev : resolvePrev db p.previousTypes own with
    | error e0 => rw [processTypeProperty, hprev] at hrun; exact absurd hrun (by simp)
    | ok pv =>
      cases hg : getType db p.type own with
      | error e0 =>
        rw [processTypeProperty, hprev, hg] at hrun; exact absurd hrun (by simp)
      | ok tp =>
        rw [processTypeProperty, hprev, hg] at hrun
        simp only [Except.ok.injEq] at hrun
        rw [← hrun]
        rfl

theorem entry_shapes_witness :
    ([("name", JVal.vStr "Arn"),
      ("valueType", JVal.vType (.primitive "string")),
      ("previousType", JVal.vType (.primitive "boolean"))] : JsObj).map Prod.fst
      = ["name", "valueType", "previousType"] :=
  (entry_shapes db3 "AWS::A::One" "X" [] "Arn").1 attrA
    [("name", JVal.vStr "Arn"), ("valueType", JVal.vType (.primitive "string")),
     ("previousType", JVal.vType (.primitive "boolean"))] [] rfl

/-- Claim C3 counterexample: in `db3` both resources reference the type
definition `td1`.  After the first resource alone, the ReferenceTable
entry for `td1` is `"AWS::A::One.Conf"`; after the full pass 1 it has
been overwritten to `"AWS::A::Two.Conf"` — a second assignment to the
same key did occur, and the first recorded owner was lost. -/
theorem refTable_write_once_cex :
    (pass1 db3 [] [] [resOne]).map Prod.fst = .ok [("td1", "AWS::A::One.Conf")]
    ∧ (pass1 db3 [] [] db3.resources).map Prod.fst
        = .ok [("td1", "AWS::A::Two.Conf")]
    ∧ ("AWS::A::Two.Conf" : String) ≠ "AWS::A::One.Conf" :=
  ⟨rfl, rfl, by decide⟩

/-- Claim C3 (corrected), amended: ReferenceTable keys are NOT write-once.
Each write `objSet` stores the writing resource's qualified value for the
identifier, overwriting any earlier entry for the same key and leaving
every other key unchanged, so when several resources reference the same
type definition the final recorded owner is the last writer in traversal
order (`writeRefs` performs exactly such an `objSet` per referenced id). -/
theorem refTable_last_write_wins (refs : RefTable) (cfn i n k k' v : String)
    (hne : k' ≠ k) :
    objLookup (objSet refs k v) k = some v
    ∧ objLookup (objSet refs k v) k' = objLookup refs k'
    ∧ writeRefs cfn [(i, n)] refs = objSet refs i (cfn ++ "." ++ n) := by
  refine ⟨?_, ?_, rfl⟩
  · induction refs with
    | nil => simp [objSet, objLookup]
    | cons h t ih =>
      rw [objSet]
      by_cases hk : h.1 = k
      · simp [hk, objLookup]
      · rw [if_neg hk, objLookup, if_neg hk]
        exact ih
  · induction refs with
    | nil =>
      simp only [objSet, objLookup]
      rw [if_neg (fun h2 => hne h2.symm)]
    | cons h t ih =>
      rw [objSet]
      by_cases hk : h.1 = k
      · rw [if_pos hk, objLookup, objLookup, if_neg (fun h2 => hne h2.symm),
            if_neg (by rw [hk]; exact fun h2 => hne h2.symm)]
      · rw [if_neg hk, objLookup, objLookup]
        by_cases hk' : h.1 = k'
        · rw [if_pos hk', if_pos hk']
        · rw [if_neg hk', if_neg hk']
          exact ih

theorem refTable_last_write_wins_witness :
    objLookup (objSet refs4 "td1" "AWS::A::Two.Conf") "td1"
      = some "AWS::A::Two.Conf"
    ∧ objLookup (objSet refs4 "td1" "AWS::A::Two.Conf") "other"
      = objLookup refs4 "other"
    ∧ writeRefs "AWS::A::Two" [("td1", "Conf")] refs4
      = objSet refs4 "td1" ("AWS::A::Two" ++ "." ++ "Conf") :=
  refTable_last_write_wins refs4 "AWS::A::Two" "td1" "Conf" "td1" "other"
    "AWS::A::Two.Conf" (by decide)

theorem processTypeDef_found (db : Database) (refs : RefTable)
    (rn : Option String) (t : TypeDef) (s : String)
    (out : String × String × TypeEntry)
    (hl : objLookup refs t.id = some s)
    (h : processTypeDef db refs rn t = .ok out) :
    out.1 = firstDotSeg s
    ∧ out.2.1 = firstDotSeg s ++ "." ++ (t.name ++ "Property") := by
  simp only [processTypeDef, hl] at h
  cases ho : only (lookupService db
      (String.intercalate "::" ((ccSplit (firstDotSeg s)).dropLast))) with
  | error e => rw [ho] at h; exact absurd h (by simp)
  | ok service =>
    rw [ho] at h
    cases hp : processTypeProps db (firstDotSeg s) t.properties with
    | error e => rw [hp] at h; exact absurd h (by simp)
    | ok props =>
      rw [hp] at h
      simp only [Except.ok.injEq] at h
      rw [← h]
      exact ⟨rfl, rfl⟩

theorem processTypeDef_carry (db : Database) (refs : RefTable) (r : String)
    (t : TypeDef) (out : String × String × TypeEntry)
    (hl : objLookup refs t.id = none)
    (h : processTypeDef db refs (some r) t = .ok out) :
    out.1 = firstDotSeg r
    ∧ out.2.1 = firstDotSeg r ++ "." ++ (t.name ++ "Property") := by
  simp only [processTypeDef, hl] at h
  cases ho : only (lookupService db
      (String.intercalate "::" ((ccSplit (firstDotSeg r)).dropLast))) with
  | error e => rw [ho] at h; exact absurd h (by simp)
  | ok service =>
    rw [ho] at h
    cases hp : processTypeProps db (firstDotSeg r) t.properties with
    | error e => rw [hp] at h; exact absurd h (by simp)
    | ok props =>
      rw [hp] at h
      simp only [Except.ok.injEq] at h
      rw [← h]
      exact ⟨rfl, rfl⟩

/-- Claim C4 (confirmed): when two type definitions are processed
consecutively in pass 2, the first (`d1`) having a ReferenceTable entry
`s` — so its resolved owner is `R = s.split('.')[0]` — and the second
(`d2`) having none, `d2`'s resolved owner equals `R` (the carried-forward
`resourceName`), and `d2`'s emitted qualified name is
`R ++ "." ++ d2.name ++ "Property"`. -/
theorem owner_carry_forward (db : Database) (refs : RefTable)
    (rn : Option String) (d1 d2 : TypeDef) (s rn1 rn2 k2 : String)
    (h1 : objLookup refs d1.id = some s)
    (h2 : objLookup refs d2.id = none)
    (hd1 : (processTypeDef db refs rn d1).map (fun x => x.1) = .ok rn1)
    (hd2 : (processTypeDef db refs (some rn1) d2).map (fun x => (x.1, x.2.1))
        = .ok (rn2, k2)) :
    rn1 = firstDotSeg s ∧ rn2 = rn1
    ∧ k2 = rn1 ++ "." ++ (d2.name ++ "Property") := by
  cases hp1 : processTypeDef db refs rn d1 with
  | error e => rw [hp1] at hd1; exact absurd hd1 (by simp [Except.map])
  | ok out1 =>
    rw [hp1] at hd1
    simp only [Except.map, Except.ok.injEq] at hd1
    obtain ⟨ho1, _⟩ := processTypeDef_found db refs rn d1 s out1 h1 hp1
    have hrn1 : rn1 = firstDotSeg s := by rw [← hd1, ho1]
    cases hp2 : processTypeDef db refs (some rn1) d2 with
    | error e => rw [hp2] at hd2; exact absurd hd2 (by simp [Except.map])
    | ok out2 =>
      rw [hp2] at hd2
      simp only [Except.map, Except.ok.injEq, Prod.mk.injEq] at hd2
      obtain ⟨ho2, hk2⟩ := processTypeDef_carry db refs rn1 d2 out2 h2 hp2
      have hfix : firstDotSeg rn1 = rn1 := by
        rw [hrn1, firstDotSeg_idem]
      refine ⟨hrn1, ?_, ?_⟩
      · rw [← hd2.1, ho2, hfix]
      · rw [← hd2.2, hk2, hfix]

theorem owner_carry_forward_witness :
    ("AWS::A::One" : String) = firstDotSeg "AWS::A::One.Conf"
    ∧ ("AWS::A::One" : String) = "AWS::A::One"
    ∧ ("AWS::A::One.ExtraProperty" : String)
        = "AWS::A::One" ++ "." ++ ("Extra" ++ "Property") :=
  owner_carry_forward db4 refs4 none tdConf tdExtra "AWS::A::One.Conf"
    "AWS::A::One" "AWS::A::One" "AWS::A::One.ExtraProperty" rfl rfl rfl rfl

theorem listReplaceFirst_prefix (pat rep b : List Char) :
    listReplaceFirst pat rep (pat ++ b) = rep ++ b := by
  cases pat with
  | nil =>
    cases b with
    | nil => simp [listReplaceFirst, List.isEmpty]
    | cons c cs =>
      rw [List.nil_append, listReplaceFirst]
      simp [List.isPrefixOf]
  | cons p ps =>
    have hpre : (p :: ps).isPrefixOf (p :: (ps ++ b)) = true :=
      isPrefixOf_append_self (p :: ps) b
    show listReplaceFirst (p :: ps) rep (p :: (ps ++ b)) = rep ++ b
    rw [listReplaceFirst, if_pos hpre]
    show rep ++ ((p :: ps) ++ b).drop (p :: ps).length = rep ++ b
    rw [List.drop_left]

/-- Claim C8 (confirmed): (a) every successfully processed resource's
construct record is `constructNaming` of its resolved service and short
name; (b) that record has exactly the five target-language entries, each
with symbol name `"Cfn" ++ shortName`; (c) the string substitution used
throughout the naming templates replaces only the FIRST occurrence of the
searched substring: when the occurrence of `pat` at the end of `a` is the
first one in `a ++ pat ++ b`, the result is `a ++ rep ++ b`, any later
occurrences inside `b` surviving verbatim. -/
theorem construct_naming_spec :
    (∀ (db : Database) (refs refs2 : RefTable) (r : Resource)
        (entry : ResourceEntry),
        processResource db refs r = .ok (refs2, entry) →
        ∃ svc, only (lookupService db (resServiceType r)) = .ok svc
          ∧ entry.construct = constructNaming svc r.name)
    ∧ (∀ (svc : Service) (rname : String),
        (constructNaming svc rname).map Prod.fst
          = ["typescript", "csharp", "golang", "java", "python"]
        ∧ ∀ lang o, (lang, o) ∈ constructNaming svc rname →
            objLookup o "name" = some ("Cfn" ++ rname))
    ∧ (∀ (pat rep a b : List Char),
        (∀ i, i < a.length → (pat.isPrefixOf ((a ++ (pat ++ b)).drop i)) = false) →
        listReplaceFirst pat rep (a ++ (pat ++ b)) = a ++ (rep ++ b)) := by
  refine ⟨?_, ?_, ?_⟩
  · intro db refs refs2 r entry hrun
    cases ho : only (lookupService db (resServiceType r)) with
    | error e => rw [processResource, ho] at hrun; exact absurd hrun (by simp)
    | ok svc =>
      refine ⟨svc, rfl, ?_⟩
      cases ha : processAttrs db r.cloudFormationType refs r.attributes with
      | error e => simp [processResource, ho, ha] at hrun
      | ok ap =>
        obtain ⟨attrs, refs1⟩ := ap
        cases hp : processProps db r.cloudFormationType refs1 r.properties with
        | error e => simp [processResource, ho, ha, hp] at hrun
        | ok pp =>
          obtain ⟨props, refsF⟩ := pp
          simp only [processResource, ho, ha, hp, Except.ok.injEq,
            Prod.mk.injEq] at hrun
          rw [← hrun.2]
  · intro svc rname
    refine ⟨rfl, ?_⟩
    intro lang o hmem
    simp only [constructNaming, List.mem_cons, List.not_mem_nil, or_false,
      Prod.mk.injEq] at hmem
    rcases hmem with ⟨_, rfl⟩ | ⟨_, rfl⟩ | ⟨_, rfl⟩ | ⟨_, rfl⟩ | ⟨_, rfl⟩ <;> rfl
  · intro pat rep a b
    induction a with
    | nil =>
      intro _
      simpa using listReplaceFirst_prefix pat rep b
    | cons x a' ih =>
      intro h
      have h0 : pat.isPrefixOf (x :: (a' ++ (pat ++ b))) = false := by
        have := h 0 (Nat.succ_pos _)
        rwa [List.cons_append, List.drop_zero] at this
      rw [List.cons_append, listReplaceFirst, if_neg (by simp [h0]),
        ih (fun i hi => by
          have := h (i + 1) (by simpa using Nat.succ_lt_succ hi)
          rwa [List.cons_append, List.drop_succ_cons] at this),
        List.cons_append]

theorem construct_naming_spec_witness :
    listReplaceFirst [Char.ofNat 45] []
        ([Char.ofNat 97, Char.ofNat 119, Char.ofNat 115]
          ++ ([Char.ofNat 45] ++ [Char.ofNat 98, Char.ofNat 45, Char.ofNat 99]))
      = [Char.ofNat 97, Char.ofNat 119, Char.ofNat 115]
          ++ ([] ++ [Char.ofNat 98, Char.ofNat 45, Char.ofNat 99]) :=
  construct_naming_spec.2.2 [Char.ofNat 45] []
    [Char.ofNat 97, Char.ofNat 119, Char.ofNat 115]
    [Char.ofNat 98, Char.ofNat 45, Char.ofNat 99] (by decide)

/-- Claim C5 (confirmed): service resolution matching zero or several
services is fatal for the whole run.  (a) If any resource's namespace
does not match exactly one service, `generate` fails; (b) if a processed
type definition's owner namespace does not match exactly one service, its
processing step fails; (c) a failing step fails the whole of pass 2;
(d) a failing pass 2 fails `generate`; (e) a failed `generate` returns no
`Specification` at all — there is no partial result. -/
theorem service_resolution_fatal :
    (∀ (db : Database) (r : Resource), r ∈ db.resources →
        (lookupService db (resServiceType r)).length ≠ 1 →
        okB (generate db) = false)
    ∧ (∀ (db : Database) (refs : RefTable) (rn : Option String) (t : TypeDef)
        (s : String),
        objLookup refs t.id = some s →
        (lookupService db
            (String.intercalate "::" ((ccSplit (firstDotSeg s)).dropLast))).length ≠ 1 →
        okB (processTypeDef db refs rn t) = false)
    ∧ (∀ (db : Database) (refs : RefTable) (rn : Option String)
        (acc : List (String × TypeEntry)) (keys : RefTable) (t : TypeDef)
        (ts : List TypeDef) (e : String),
        processTypeDef db refs rn t = .error e →
        pass2 db refs rn acc keys (t :: ts) = .error e)
    ∧ (∀ (db : Database) (refs : RefTable)
        (rts : List (String × ResourceEntry)) (e : String),
        pass1 db [] [] db.resources = .ok (refs, rts) →
        pass2 db refs none [] [] db.typeDefs = .error e →
        generate db = .error e)
    ∧ (∀ (db : Database) (s : Specification),
        okB (generate db) = false → generate db ≠ .ok s) := by
  refine ⟨?_, ?_, ?_, ?_, ?_⟩
  · intro db r hmem hlen
    have hfail := pass1_mem_err db r db.resources [] [] hmem hlen
    rw [generate]
    cases hp : pass1 db [] [] db.resources with
    | error e => rfl
    | ok p => rw [hp] at hfail; exact absurd hfail (by simp [okB])
  · intro db refs rn t s hl hlen
    obtain ⟨e, he⟩ := only_len_ne_one _ hlen
    simp only [processTypeDef, hl, he]
    rfl
  · intro db refs rn acc keys t ts e hstep
    rw [pass2, hstep]
  · intro db refs rts e h1 h2
    simp only [generate, h1, h2]
  · intro db s hfail hok
    rw [hok] at hfail
    exact absurd hfail (by simp [okB])

theorem service_resolution_fatal_witness :
    okB (generate dbNoSvc) = false :=
  service_resolution_fatal.1 dbNoSvc resOne (List.Mem.head _) (by decide)

/-- Claim C9 (confirmed): if the first type definition of pass 2 has no
ReferenceTable entry — the carry-forward `resourceName` still being
`undefined` — the run fails with an error (the `TypeError` of calling
`.split` on `undefined`) instead of emitting that definition under any
default owner. -/
theorem unreferenced_first_typedef_fails (db : Database) (t : TypeDef)
    (ts : List TypeDef) (refs : RefTable)
    (rts : List (String × ResourceEntry))
    (h1 : db.typeDefs = t :: ts)
    (h2 : pass1 db [] [] db.resources = .ok (refs, rts))
    (h3 : objLookup refs t.id = none) :
    okB (generate db) = false := by
  have hstep : processTypeDef db refs none t = .error
      "TypeError: cannot read properties of undefined (reading split)" := by
    simp only [processTypeDef, h3]
  have hp2 : pass2 db refs none [] [] db.typeDefs = .error
      "TypeError: cannot read properties of undefined (reading split)" := by
    rw [h1, pass2, hstep]
  simp only [generate, h2, hp2]
  rfl

theorem unreferenced_first_typedef_fails_witness :
    okB (generate db9) = false :=
  unreferenced_first_typedef_fails db9 tdExtra [] [] [] rfl rfl rfl

end GenSchema
